import Mathlib

/-!
# Verification of the dynamic-fee transaction variant (`TxInternalDataDynamicFee`)

A shallow embedding, in Lean 4, of the dynamic-fee/access-list transaction
variant of the klaytn `types` package (file `tx_internal_data_dynamic_fee.go`
of the repository, given here as part of `src/cmd/homi/genesis/options.go`):
its field container, its constructors, signature validation, equality,
validation, execution dispatch, the signing-payload serialization, the wire
(RLP) encoding and the JSON encoding.

Go values are embedded as follows: machine integers (`uint64`, byte) become
`Nat` with explicit `% 2 ^ w` where truncation happens in the source;
`*big.Int` cells that the data-model invariant keeps non-nil become `Nat`
(all of the Go code's big integers here are unsigned quantities); nilable
pointers (`*common.Address`, `*common.Hash`, the pointer fields of the JSON
wrapper structs) become `Option`; byte slices, addresses (20 bytes) and
storage keys (32 bytes) become `List Nat`; fallible Go functions returning
`error` become `Except`/`Option`-valued functions.
-/

namespace KlaytnTx

/-- A 20-byte account address (`common.Address`), embedded as its list of
byte values. -/
abbrev Addr := List Nat

/-- A 32-byte storage key (`common.Hash`), embedded as its list of byte
values. -/
abbrev StorageKey := List Nat

/-- Modelled from the spec: one entry of an access list, "an ordered sequence
of (address, ordered sequence of 32-byte storage keys)" (`AccessTuple` of the
types package, whose definition is outside `src/`). -/
structure AccessTuple where
  address : Addr
  storageKeys : List StorageKey
deriving DecidableEq

/-- The field container of the dynamic-fee transaction variant
(`TxInternalDataDynamicFee`).  `Recipient = none` means contract creation;
`Hash` is the nilable cached hash used only for JSON marshaling. -/
structure TxInternalDataDynamicFee where
  ChainID : Nat
  AccountNonce : Nat
  GasTipCap : Nat
  GasFeeCap : Nat
  GasLimit : Nat
  Recipient : Option Addr
  Amount : Nat
  Payload : List Nat
  AccessList : List AccessTuple
  V : Nat
  R : Nat
  S : Nat
  Hash : Option (List Nat)
deriving DecidableEq

/-- The zeroed constructor `newTxInternalDataDynamicFee`: every big-integer
cell allocated at zero, payload and access list empty, recipient and cached
hash nil. -/
def newTxInternalDataDynamicFee : TxInternalDataDynamicFee :=
  { ChainID := 0
    AccountNonce := 0
    GasTipCap := 0
    GasFeeCap := 0
    GasLimit := 0
    Recipient := none
    Amount := 0
    Payload := []
    AccessList := []
    V := 0
    R := 0
    S := 0
    Hash := none }

/-- Go's built-in `copy(dst, src)` on slices: overwrites the first
`min dst.length src.length` elements of `dst` with those of `src`, leaving
the length of `dst` (and its remaining elements) unchanged. -/
def goCopy {α : Type} (dst src : List α) : List α :=
  src.take dst.length ++ dst.drop src.length

/-- The explicit-values constructor `newTxInternalDataDynamicFeeWithValues`.
Nilable Go arguments (`*common.Address`, `*big.Int`, a nilable access-list
slice) are `Option`-valued; `data` is a byte slice whose nil and empty forms
both have length 0, matching the `len(data) > 0` guard.  The access-list
branch mirrors the source's `copy(d.AccessList, accessList)`, which copies
into the zeroed constructor's empty slice. -/
def newTxInternalDataDynamicFeeWithValues (nonce : Nat) (toAddr : Option Addr)
    (amount : Option Nat) (gasLimit : Nat) (gasTipCap : Option Nat)
    (gasFeeCap : Option Nat) (data : List Nat)
    (accessList : Option (List AccessTuple)) (chainID : Option Nat) :
    TxInternalDataDynamicFee :=
  let d := newTxInternalDataDynamicFee
  let d := { d with AccountNonce := nonce, Recipient := toAddr, GasLimit := gasLimit }
  let d := if data.length > 0 then { d with Payload := data } else d
  let d := match amount with
    | some a => { d with Amount := a }
    | none => d
  let d := match gasTipCap with
    | some a => { d with GasTipCap := a }
    | none => d
  let d := match gasFeeCap with
    | some a => { d with GasFeeCap := a }
    | none => d
  let d := match accessList with
    | some al => { d with AccessList := goCopy d.AccessList al }
    | none => d
  let d := match chainID with
    | some c => { d with ChainID := c }
    | none => d
  d

/-- The field-name tokens of the keyed construction map (`TxValueKeyType`).
Besides the nine keys this variant requires, a few of the package's other
keys are included so that "unrecognized key" situations are expressible. -/
inductive TxValueKeyType where
  | keyNonce
  | keyTo
  | keyAmount
  | keyData
  | keyGasLimit
  | keyGasFeeCap
  | keyGasTipCap
  | keyAccessList
  | keyChainID
  | keyFrom
  | keyFeePayer
  | keyFeeRatioOfFeePayer
deriving DecidableEq

/-- The untyped values (`interface{}`) a construction map can hold; the Go
type assertions `.(uint64)`, `.(common.Address)`, `.(*big.Int)`, `.([]byte)`
and `.(AccessList)` become matches on these constructors. -/
inductive TxValue where
  | vUint64 (n : Nat)
  | vAddress (a : Addr)
  | vBigInt (n : Nat)
  | vBytes (b : List Nat)
  | vAccessList (al : List AccessTuple)
deriving DecidableEq

/-- A Go map over key tokens, embedded as an association list (Go map keys
are unique; lookup takes the first match). -/
abbrev TxValueMap := List (TxValueKeyType × TxValue)

/-- `values[k]` of the construction map. -/
def mapLookup (values : TxValueMap) (k : TxValueKeyType) : Option TxValue :=
  (values.find? (fun p => p.1 == k)).map (·.2)

/-- `delete(values, k)` of the construction map. -/
def mapDelete (values : TxValueMap) (k : TxValueKeyType) : TxValueMap :=
  values.filter (fun p => !(p.1 == k))

/-- The distinct construction errors of the map constructor
(`errValueKeyNonceMustUint64`, ..., `errUndefinedKeyRemains`). -/
inductive MapErr where
  | errValueKeyNonceMustUint64
  | errValueKeyToMustAddress
  | errValueKeyAmountMustBigInt
  | errValueKeyDataMustByteSlice
  | errValueKeyGasLimitMustUint64
  | errValueKeyGasFeeCapMustBigInt
  | errValueKeyGasTipCapMustBigInt
  | errValueKeyAccessListInvalid
  | errValueKeyChainIDInvalid
  | errUndefinedKeyRemains
deriving DecidableEq

/-- The observable outcome of a failed map construction: the returned error,
the state of the instance under construction at the failure point (so that
"does not mutate any big-integer cell" is expressible), and the keys named
by the `logger.Warn("unnecessary key", ...)` diagnostic. -/
structure MapFailure where
  err : MapErr
  dAtFailure : TxInternalDataDynamicFee
  warnedKeys : List TxValueKeyType
deriving DecidableEq

/-- The keyed-map constructor `newTxInternalDataDynamicFeeWithMap`: each
required key is asserted to hold a value of its required type, consumed into
the instance and deleted from the map, in source order; a failed assertion
returns that key's error at once; any keys remaining at the end are warned
about by name and fail the construction with `errUndefinedKeyRemains`. -/
def newTxInternalDataDynamicFeeWithMap (values : TxValueMap) :
    Except MapFailure TxInternalDataDynamicFee :=
  let d := newTxInternalDataDynamicFee
  match mapLookup values .keyNonce with
  | some (.vUint64 nv) =>
    let d := { d with AccountNonce := nv }
    let values := mapDelete values .keyNonce
    match mapLookup values .keyTo with
    | some (.vAddress av) =>
      let d := { d with Recipient := some av }
      let values := mapDelete values .keyTo
      match mapLookup values .keyAmount with
      | some (.vBigInt amv) =>
        let d := { d with Amount := amv }
        let values := mapDelete values .keyAmount
        match mapLookup values .keyData with
        | some (.vBytes bv) =>
          let d := { d with Payload := bv }
          let values := mapDelete values .keyData
          match mapLookup values .keyGasLimit with
          | some (.vUint64 gv) =>
            let d := { d with GasLimit := gv }
            let values := mapDelete values .keyGasLimit
            match mapLookup values .keyGasFeeCap with
            | some (.vBigInt fv) =>
              let d := { d with GasFeeCap := fv }
              let values := mapDelete values .keyGasFeeCap
              match mapLookup values .keyGasTipCap with
              | some (.vBigInt tv) =>
                let d := { d with GasTipCap := tv }
                let values := mapDelete values .keyGasTipCap
                match mapLookup values .keyAccessList with
                | some (.vAccessList alv) =>
                  let d := { d with AccessList := alv }
                  let values := mapDelete values .keyAccessList
                  match mapLookup values .keyChainID with
                  | some (.vBigInt cv) =>
                    let d := { d with ChainID := cv }
                    let values := mapDelete values .keyChainID
                    if values.length ≠ 0 then
                      .error ⟨.errUndefinedKeyRemains, d, values.map (·.1)⟩
                    else
                      .ok d
                  | _ => .error ⟨.errValueKeyChainIDInvalid, d, []⟩
                | _ => .error ⟨.errValueKeyAccessListInvalid, d, []⟩
              | _ => .error ⟨.errValueKeyGasTipCapMustBigInt, d, []⟩
            | _ => .error ⟨.errValueKeyGasFeeCapMustBigInt, d, []⟩
          | _ => .error ⟨.errValueKeyGasLimitMustUint64, d, []⟩
        | _ => .error ⟨.errValueKeyDataMustByteSlice, d, []⟩
      | _ => .error ⟨.errValueKeyAmountMustBigInt, d, []⟩
    | _ => .error ⟨.errValueKeyToMustAddress, d, []⟩
  | _ => .error ⟨.errValueKeyNonceMustUint64, d, []⟩

/-- Modelled from the spec: `equalRecipient` (outside `src/`) — the optional
recipients are equal when both are absent, or both present with the same
address bytes. -/
def equalRecipient (a b : Option Addr) : Bool :=
  a == b

/-- The `Equal` method of the variant, field for field as in the source:
big-integer cells compare by value (`Cmp == 0`), the access list compares
structurally and order-sensitively (`reflect.DeepEqual`), the cached `Hash`
is not compared.  The source compares `ChainID`, `AccountNonce`, `GasFeeCap`,
`GasTipCap`, `GasLimit`, `Recipient`, `Amount`, `AccessList`, `V`, `R`, `S` —
and no other field. -/
def TxInternalDataDynamicFee.Equal (t ta : TxInternalDataDynamicFee) : Bool :=
  t.ChainID == ta.ChainID &&
  t.AccountNonce == ta.AccountNonce &&
  t.GasFeeCap == ta.GasFeeCap &&
  t.GasTipCap == ta.GasTipCap &&
  t.GasLimit == ta.GasLimit &&
  equalRecipient t.Recipient ta.Recipient &&
  t.Amount == ta.Amount &&
  t.AccessList == ta.AccessList &&
  t.V == ta.V &&
  t.R == ta.R &&
  t.S == ta.S

/-- The order of the secp256k1 curve (`secp256k1N` of the crypto package). -/
def secp256k1N : Nat :=
  115792089237316195423570985008687907852837564279074904382605163141518161494337

/-- `secp256k1halfN = secp256k1N / 2`, the low-S boundary. -/
def secp256k1halfN : Nat := secp256k1N / 2

/-- Modelled from the spec: `crypto.ValidateSignatureValues` (outside `src/`)
— the malleability-safe range checks: `r` and `s` must be at least 1 and
below the curve order, `s` must not exceed the curve-order half, and the
recovery-id byte must be 0 or 1; out-of-range values are reported invalid. -/
def validateSignatureValues (v r s : Nat) : Bool :=
  decide (1 ≤ r) && decide (r < secp256k1N) &&
  decide (1 ≤ s) && decide (s ≤ secp256k1halfN) &&
  (v == 0 || v == 1)

/-- The `ValidateSignature` method: `v := byte(t.V.Uint64())` truncates the
`V` cell to its low 64 bits and then to its low byte, and the triple is
range-checked. -/
def TxInternalDataDynamicFee.ValidateSignature
    (t : TxInternalDataDynamicFee) : Bool :=
  validateSignatureValues (t.V % 2 ^ 64 % 2 ^ 8) t.R t.S

/-- The named consensus-validation errors surfaced by `Validate`
(`kerrors.ErrPrecompiledContractAddress`). -/
inductive KError where
  | errPrecompiledContractAddress
deriving DecidableEq

/-- The `ValidateMutableValue` method of this variant: a no-op success
(returns a nil error). -/
def TxInternalDataDynamicFee.ValidateMutableValue
    (_t : TxInternalDataDynamicFee) : Option KError :=
  none

/-- The `Validate` method: a present recipient that is one of the runtime's
reserved precompiled-contract addresses is rejected with the distinct
precompiled-address error, then the mutable-value check runs.  The reserved
set (`common.IsPrecompiledContractAddress`, outside `src/`) is passed in as
a predicate. -/
def TxInternalDataDynamicFee.Validate (isPrecompiledContractAddress : Addr → Bool)
    (t : TxInternalDataDynamicFee) : Option KError :=
  match t.Recipient with
  | some r =>
    if isPrecompiledContractAddress r then
      some .errPrecompiledContractAddress
    else
      t.ValidateMutableValue
  | none => t.ValidateMutableValue

/-- The state-changing and engine-invoking effects `Execute` can perform, in
order: `stateDB.IncNonce`, `vm.Create`, `vm.Call`. -/
inductive ExecEvent where
  | incNonce (a : Addr)
  | create (sender : Addr) (code : List Nat) (gas : Nat) (value : Nat)
  | call (sender : Addr) (toAddr : Addr) (input : List Nat) (gas : Nat) (value : Nat)
deriving DecidableEq

/-- What `vm.Create(sender, code, gas, value, format)` returns: output bytes,
created address, gas used, error (errors are opaque, embedded as codes). -/
structure CreateOutcome where
  ret : List Nat
  addr : Addr
  usedGas : Nat
  err : Option Nat
deriving DecidableEq

/-- What `vm.Call(sender, to, input, gas, value)` returns. -/
structure CallOutcome where
  ret : List Nat
  usedGas : Nat
  err : Option Nat
deriving DecidableEq

/-- The `Execute` method.  The execution engine is an external collaborator,
passed in as the two functions `vmCreate` and `vmCall`; the returned event
list records, in order, the side effects performed (nonce increments and
engine invocations), and the triple is the `(ret, usedGas, err)` the method
returns.  Absent recipient: `vm.Create` on the payload as init code, created
address discarded, no nonce increment here; present recipient: one
`IncNonce` on the sender, then `vm.Call` on the payload as input. -/
def TxInternalDataDynamicFee.Execute (t : TxInternalDataDynamicFee)
    (sender : Addr)
    (vmCreate : Addr → List Nat → Nat → Nat → CreateOutcome)
    (vmCall : Addr → Addr → List Nat → Nat → Nat → CallOutcome)
    (gas value : Nat) :
    List ExecEvent × List Nat × Nat × Option Nat :=
  match t.Recipient with
  | none =>
    let o := vmCreate sender t.Payload gas value
    ([.create sender t.Payload gas value], o.ret, o.usedGas, o.err)
  | some r =>
    let o := vmCall sender r t.Payload gas value
    ([.incNonce sender, .call sender r t.Payload gas value],
      o.ret, o.usedGas, o.err)

/-- One serialized element of a canonical encoding: each constructor tags
which transaction field the element came from and carries its value. -/
inductive SerField where
  | fChainID (n : Nat)
  | fNonce (n : Nat)
  | fGasTipCap (n : Nat)
  | fGasFeeCap (n : Nat)
  | fGasLimit (n : Nat)
  | fRecipient (r : Option Addr)
  | fAmount (n : Nat)
  | fPayload (p : List Nat)
  | fAccessList (al : List AccessTuple)
  | fV (n : Nat)
  | fR (n : Nat)
  | fS (n : Nat)
deriving DecidableEq

/-- Whether a serialized element is the chain id. -/
def SerField.isChainID : SerField → Bool
  | .fChainID _ => true
  | _ => false

/-- Whether a serialized element is a signature component (`V`, `R` or `S`). -/
def SerField.isSignatureComponent : SerField → Bool
  | .fV _ => true
  | .fR _ => true
  | .fS _ => true
  | _ => false

/-- The `SerializeForSign` method: the `[]interface{}` slice handed to the
signing-hash computation, in source order. -/
def TxInternalDataDynamicFee.SerializeForSign
    (t : TxInternalDataDynamicFee) : List SerField :=
  [.fNonce t.AccountNonce,
   .fGasTipCap t.GasTipCap,
   .fGasFeeCap t.GasFeeCap,
   .fGasLimit t.GasLimit,
   .fRecipient t.Recipient,
   .fAmount t.Amount,
   .fPayload t.Payload,
   .fAccessList t.AccessList]

/-- The field slice hashed by `SenderTxHash` (type-tagged in the source),
kept here to document that the chain id and signature components do appear
in other encodings of the same instance. -/
def TxInternalDataDynamicFee.senderTxHashFields
    (t : TxInternalDataDynamicFee) : List SerField :=
  [.fChainID t.ChainID,
   .fNonce t.AccountNonce,
   .fGasTipCap t.GasTipCap,
   .fGasFeeCap t.GasFeeCap,
   .fGasLimit t.GasLimit,
   .fRecipient t.Recipient,
   .fAmount t.Amount,
   .fPayload t.Payload,
   .fAccessList t.AccessList,
   .fV t.V,
   .fR t.R,
   .fS t.S]

/-- Modelled from the spec: the wire format is "a structured, self-describing
binary encoding" (RLP, whose encoder lives outside `src/`); an item is either
a byte string or a list of items. -/
inductive RLPItem where
  | str (bytes : List Nat)
  | items (l : List RLPItem)

/-- Minimal (no leading zero byte) big-endian byte encoding of a `Nat`, as
the RLP encoder produces for unsigned integers; zero encodes as the empty
string. -/
def natToBE (n : Nat) : List Nat :=
  if h : n = 0 then [] else natToBE (n / 256) ++ [n % 256]
termination_by n
decreasing_by exact Nat.div_lt_self (Nat.pos_of_ne_zero h) (by norm_num)

/-- Big-endian byte-list value. -/
def beToNat (l : List Nat) : Nat :=
  l.foldl (fun acc b => acc * 256 + b) 0

/-- RLP encoding of an unsigned integer (`uint64` and `*big.Int` fields
alike): its minimal big-endian byte string. -/
def rlpOfUint (n : Nat) : RLPItem :=
  .str (natToBE n)

/-- RLP decoding of a `*big.Int` field: a byte string in canonical minimal
big-endian form (non-canonical forms are rejected, as the RLP decoder
does). -/
def rlpToUint : RLPItem → Option Nat
  | .str l => if natToBE (beToNat l) = l then some (beToNat l) else none
  | .items _ => none

/-- RLP decoding of a `uint64` field: canonical form of at most 8 bytes. -/
def rlpToUint64 : RLPItem → Option Nat
  | .str l =>
    if natToBE (beToNat l) = l ∧ l.length ≤ 8 then some (beToNat l) else none
  | .items _ => none

/-- RLP encoding of the nilable recipient (`rlp:"nil"` tag): an absent
recipient encodes as the empty byte string, a present one as its 20 address
bytes. -/
def rlpOfRecipient : Option Addr → RLPItem
  | some a => .str a
  | none => .str []

/-- RLP decoding of the nilable recipient: the empty string decodes to
absence, a 20-byte string to a present address, anything else is
rejected. -/
def rlpToRecipient : RLPItem → Option (Option Addr)
  | .str [] => some none
  | .str l => if l.length = 20 then some (some l) else none
  | .items _ => none

/-- RLP decoding of a byte-slice field. -/
def rlpToBytes : RLPItem → Option (List Nat)
  | .str l => some l
  | .items _ => none

/-- RLP decoding of a 32-byte storage key. -/
def rlpToStorageKey : RLPItem → Option StorageKey
  | .str l => if l.length = 32 then some l else none
  | .items _ => none

/-- RLP encoding of one access-list entry: `[address, [key, ...]]`. -/
def rlpOfAccessTuple (t : AccessTuple) : RLPItem :=
  .items [.str t.address, .items (t.storageKeys.map (fun k => .str k))]

/-- RLP decoding of one access-list entry. -/
def rlpToAccessTuple : RLPItem → Option AccessTuple
  | .items [.str a, .items ks] =>
    if a.length = 20 then
      (ks.mapM rlpToStorageKey).map (fun sk => ⟨a, sk⟩)
    else none
  | _ => none

/-- RLP encoding of the access list, entry order preserved. -/
def rlpOfAccessList (al : List AccessTuple) : RLPItem :=
  .items (al.map rlpOfAccessTuple)

/-- RLP decoding of the access list. -/
def rlpToAccessList : RLPItem → Option (List AccessTuple)
  | .items l => l.mapM rlpToAccessTuple
  | .str _ => none

/-- The wire encoding of the variant: every field of the struct in
declaration order — chain id, nonce, tip cap, fee cap, gas limit, recipient
(absence as the empty-string marker), amount, payload, access list, V, R,
S — with the cached `Hash` excluded (`rlp:"-"`). -/
def rlpEncode (t : TxInternalDataDynamicFee) : RLPItem :=
  .items [rlpOfUint t.ChainID,
          rlpOfUint t.AccountNonce,
          rlpOfUint t.GasTipCap,
          rlpOfUint t.GasFeeCap,
          rlpOfUint t.GasLimit,
          rlpOfRecipient t.Recipient,
          rlpOfUint t.Amount,
          .str t.Payload,
          rlpOfAccessList t.AccessList,
          rlpOfUint t.V,
          rlpOfUint t.R,
          rlpOfUint t.S]

/-- The wire decoding of the variant: a twelve-element list whose elements
decode field by field; the cached `Hash` is not on the wire and stays
absent. -/
def rlpDecode (item : RLPItem) : Option TxInternalDataDynamicFee :=
  match item with
  | .items [c, n, tip, fee, gl, rec, am, pl, al, v, r, s] => do
    let cv ← rlpToUint c
    let nv ← rlpToUint64 n
    let tipv ← rlpToUint tip
    let feev ← rlpToUint fee
    let glv ← rlpToUint64 gl
    let recv ← rlpToRecipient rec
    let amv ← rlpToUint am
    let plv ← rlpToBytes pl
    let alv ← rlpToAccessList al
    let vv ← rlpToUint v
    let rv ← rlpToUint r
    let sv ← rlpToUint s
    some { ChainID := cv
           AccountNonce := nv
           GasTipCap := tipv
           GasFeeCap := feev
           GasLimit := glv
           Recipient := recv
           Amount := amv
           Payload := plv
           AccessList := alv
           V := vv
           R := rv
           S := sv
           Hash := none }
  | _ => none

/-- Modelled from the spec: the type discriminant of this variant
(`TxTypeDynamicFee`, defined outside `src/`), carried in JSON "as both small
integer and string". -/
def TxTypeDynamicFee : Nat := 0x7802

/-- Modelled from the spec: the string name of the type discriminant. -/
def TxTypeDynamicFeeName : String := "TxTypeEthereumDynamicFee"

/-- Modelled from the spec: one element of the JSON `signatures` array, a
`{v, r, s}` object of nilable hex big-integer pointers (`TxSignatureJSON`,
outside `src/`); a sub-field missing from the payload leaves its pointer
nil. -/
structure TxSignatureJSON where
  v : Option Nat
  r : Option Nat
  s : Option Nat
deriving DecidableEq

/-- The JSON projection struct `TxInternalDataDynamicFeeJSON`, field for
field: value-typed hex integers (`hexutil.Uint64`) default to zero when the
key is missing, pointer-typed ones (`*hexutil.Big`, `*common.Address`,
`*common.Hash`) to nil, slices to empty. -/
structure TxInternalDataDynamicFeeJSON where
  typeInt : Nat
  typeStr : String
  accountNonce : Nat
  maxPriorityFeePerGas : Option Nat
  maxFeePerGas : Option Nat
  gasLimit : Nat
  recipient : Option Addr
  amount : Option Nat
  payload : List Nat
  txSignatures : List TxSignatureJSON
  accessList : List AccessTuple
  chainID : Option Nat
  hash : Option (List Nat)
deriving DecidableEq

/-- The `MarshalJSON` method: the JSON projection built from the instance,
with the signature triple wrapped as a one-element `signatures` array and
every big-integer cell passed by pointer (present, since the cells of a
constructed instance are non-nil). -/
def marshalJSON (t : TxInternalDataDynamicFee) : TxInternalDataDynamicFeeJSON :=
  { typeInt := TxTypeDynamicFee
    typeStr := TxTypeDynamicFeeName
    accountNonce := t.AccountNonce
    maxPriorityFeePerGas := some t.GasTipCap
    maxFeePerGas := some t.GasFeeCap
    gasLimit := t.GasLimit
    recipient := t.Recipient
    amount := t.Amount
    payload := t.Payload
    txSignatures := [⟨some t.V, some t.R, some t.S⟩]
    accessList := t.AccessList
    chainID := some t.ChainID
    hash := t.Hash }

/-- The outcome of `UnmarshalJSON` on a syntactically well-formed JSON
object.  The Go method returns a nil error in every case it does not panic
in: `ok` when every big-integer pointer it copies is present, and
`okWithNilCell` when it succeeds while leaving at least one nil `*big.Int`
cell (a missing `v`/`r`/`s` sub-field or quantity key); `panicked` is the
index-out-of-range crash of `js.TxSignatures[0]` on an empty `signatures`
array. -/
inductive UnmarshalResult where
  | ok (t : TxInternalDataDynamicFee)
  | okWithNilCell
  | panicked
deriving DecidableEq

/-- The `UnmarshalJSON` method on the decoded JSON projection: it copies
every field back without presence checks, indexing `js.TxSignatures[0]`
directly (a crash when the array is empty) and storing the possibly-nil
big-integer pointers as the instance's cells (success, with nil cells, when
sub-fields are missing). -/
def unmarshalJSON (js : TxInternalDataDynamicFeeJSON) : UnmarshalResult :=
  match js.txSignatures with
  | [] => .panicked
  | sig0 :: _ =>
    match js.maxPriorityFeePerGas, js.maxFeePerGas, js.amount, js.chainID,
        sig0.v, sig0.r, sig0.s with
    | some tip, some fee, some am, some ci, some v, some r, some s =>
      .ok { ChainID := ci
            AccountNonce := js.accountNonce
            GasTipCap := tip
            GasFeeCap := fee
            GasLimit := js.gasLimit
            Recipient := js.recipient
            Amount := am
            Payload := js.payload
            AccessList := js.accessList
            V := v
            R := r
            S := s
            Hash := js.hash }
    | _, _, _, _, _, _, _ => .okWithNilCell

/-- The shape invariants Go's types give every constructed instance: the
nonce and gas limit are `uint64` values, addresses have 20 bytes and storage
keys 32 (`common.Address`, `common.Hash` are fixed-size arrays). -/
def wellFormed (t : TxInternalDataDynamicFee) : Prop :=
  t.AccountNonce < 2 ^ 64 ∧ t.GasLimit < 2 ^ 64 ∧
  (∀ a ∈ t.Recipient, a.length = 20) ∧
  (∀ e ∈ t.AccessList, e.address.length = 20 ∧ ∀ k ∈ e.storageKeys, k.length = 32)

instance (t : TxInternalDataDynamicFee) : Decidable (wellFormed t) := by
  unfold wellFormed
  infer_instance

theorem beToNat_append (l : List Nat) (b : Nat) :
    beToNat (l ++ [b]) = 256 * beToNat l + b := by
  simp [beToNat, List.foldl_append, Nat.mul_comm]

theorem beToNat_natToBE (n : Nat) : beToNat (natToBE n) = n := by
  induction n using Nat.strong_induction_on with
  | _ n ih =>
    by_cases h : n = 0
    · subst h
      rw [natToBE]
      simp [beToNat]
    · rw [natToBE]
      rw [dif_neg h]
      rw [beToNat_append,
        ih (n / 256) (Nat.div_lt_self (Nat.pos_of_ne_zero h) (by norm_num))]
      omega

theorem natToBE_length (k n : Nat) (h : n < 256 ^ k) :
    (natToBE n).length ≤ k := by
  induction k generalizing n with
  | zero =>
    have : n = 0 := by simpa using h
    subst this
    rw [natToBE]
    simp
  | succ k ih =>
    by_cases h0 : n = 0
    · subst h0
      rw [natToBE]
      simp
    · rw [natToBE, dif_neg h0, List.length_append]
      have hq : n / 256 < 256 ^ k := by
        rw [Nat.div_lt_iff_lt_mul (by norm_num)]
        exact lt_of_lt_of_eq h (by ring)
      have := ih (n / 256) hq
      simp only [List.length_cons, List.length_nil]
      omega

theorem rlpToUint_rlpOfUint (n : Nat) : rlpToUint (rlpOfUint n) = some n := by
  simp [rlpToUint, rlpOfUint, beToNat_natToBE]

theorem rlpToUint64_rlpOfUint (n : Nat) (h : n < 2 ^ 64) :
    rlpToUint64 (rlpOfUint n) = some n := by
  have hl : (natToBE n).length ≤ 8 :=
    natToBE_length 8 n (lt_of_lt_of_eq h (by norm_num))
  simp [rlpToUint64, rlpOfUint, beToNat_natToBE, hl]

theorem rlpToRecipient_rlpOfRecipient (r : Option Addr)
    (h : ∀ a ∈ r, a.length = 20) :
    rlpToRecipient (rlpOfRecipient r) = some r := by
  cases r with
  | none => rfl
  | some a =>
    have ha : a.length = 20 := h a rfl
    cases a with
    | nil => simp at ha
    | cons x xs => simp [rlpOfRecipient, rlpToRecipient, ha]

theorem mapM_rlpToStorageKey (ks : List StorageKey)
    (h : ∀ k ∈ ks, k.length = 32) :
    ((ks.map (fun k => RLPItem.str k)).mapM rlpToStorageKey) = some ks := by
  induction ks with
  | nil => rfl
  | cons k ks ih =>
    have hk : k.length = 32 := h k (by simp)
    have hrest := ih (fun k' hk' => h k' (by simp [hk']))
    rw [List.map_cons, List.mapM_cons, hrest]
    simp [rlpToStorageKey, hk]

theorem rlpToAccessTuple_rlpOfAccessTuple (e : AccessTuple)
    (ha : e.address.length = 20) (hk : ∀ k ∈ e.storageKeys, k.length = 32) :
    rlpToAccessTuple (rlpOfAccessTuple e) = some e := by
  show (if e.address.length = 20 then
      ((e.storageKeys.map (fun k => RLPItem.str k)).mapM rlpToStorageKey).map
        (fun sk => AccessTuple.mk e.address sk)
    else none) = some e
  rw [mapM_rlpToStorageKey e.storageKeys hk]
  simp [ha]

theorem rlpToAccessList_rlpOfAccessList (al : List AccessTuple)
    (h : ∀ e ∈ al, e.address.length = 20 ∧ ∀ k ∈ e.storageKeys, k.length = 32) :
    rlpToAccessList (rlpOfAccessList al) = some al := by
  induction al with
  | nil => rfl
  | cons e al ih =>
    have he := h e (by simp)
    have hrest := ih (fun e' he' => h e' (by simp [he']))
    simp only [rlpOfAccessList, rlpToAccessList, List.map_cons] at hrest ⊢
    rw [List.mapM_cons, hrest, rlpToAccessTuple_rlpOfAccessTuple e he.1 he.2]
    rfl

theorem equal_of_hash_erased (t : TxInternalDataDynamicFee) :
    TxInternalDataDynamicFee.Equal { t with Hash := none } t = true := by
  simp [TxInternalDataDynamicFee.Equal, equalRecipient]

/-- **C3.** Decode-encode round trip: for every well-formed field
combination, the wire (RLP) decoding of the wire encoding succeeds and
yields exactly the instance with its cached hash cleared — `Equal` to the
original, with the access list (hence its order) reproduced exactly — and
the JSON decoding of the JSON encoding succeeds and yields exactly the
original instance, which is `Equal` to itself. -/
theorem decode_encode_roundtrip (t : TxInternalDataDynamicFee)
    (h : wellFormed t) :
    rlpDecode (rlpEncode t) = some { t with Hash := none } ∧
    TxInternalDataDynamicFee.Equal { t with Hash := none } t = true ∧
    unmarshalJSON (marshalJSON t) = UnmarshalResult.ok t ∧
    TxInternalDataDynamicFee.Equal t t = true := by
  obtain ⟨h1, h2, h3, h4⟩ := h
  refine ⟨?_, equal_of_hash_erased t, rfl, by simp [TxInternalDataDynamicFee.Equal, equalRecipient]⟩
  simp [rlpEncode, rlpDecode, rlpToUint_rlpOfUint, rlpToUint64_rlpOfUint _ h1,
    rlpToUint64_rlpOfUint _ h2, rlpToRecipient_rlpOfRecipient _ h3,
    rlpToBytes, rlpToAccessList_rlpOfAccessList _ h4]

/-- A concrete one-entry access list used to exercise the explicit-values
constructor. -/
def oneEntryAccessList : List AccessTuple :=
  [⟨List.replicate 20 1, [List.replicate 32 2]⟩]

/-- **C1.** The explicit-values constructor drops a non-empty access list:
`copy(d.AccessList, accessList)` copies into the zeroed constructor's empty
slice, so the built instance's `AccessList` stays empty instead of equalling
the provided one-entry list. -/
theorem withValues_drops_nonempty_access_list :
    (newTxInternalDataDynamicFeeWithValues 1 none (some 5) 21000 (some 1)
        (some 2) [] (some oneEntryAccessList) (some 1)).AccessList = []
      ∧ oneEntryAccessList ≠ [] := by
  constructor
  · rfl
  · simp [oneEntryAccessList]

/-- A concrete 20-byte address. -/
def sampleAddr : Addr := List.replicate 20 7

/-- A concrete fully-populated, well-formed instance. -/
def sampleTx : TxInternalDataDynamicFee :=
  { ChainID := 2019
    AccountNonce := 25
    GasTipCap := 1000000000
    GasFeeCap := 2000000000
    GasLimit := 21000
    Recipient := some sampleAddr
    Amount := 12345
    Payload := [1, 2, 3]
    AccessList := oneEntryAccessList
    V := 1
    R := 10
    S := 11
    Hash := some (List.replicate 32 9) }

/-- Witness for the round-trip theorem at `sampleTx`. -/
theorem decode_encode_roundtrip_witness :
    wellFormed sampleTx ∧
    rlpDecode (rlpEncode sampleTx) = some { sampleTx with Hash := none } ∧
    unmarshalJSON (marshalJSON sampleTx) = UnmarshalResult.ok sampleTx := by
  refine ⟨by decide, (decode_encode_roundtrip sampleTx (by decide)).1,
    (decode_encode_roundtrip sampleTx (by decide)).2.2.1⟩

/-- **C2.** The signing-payload serialization is exactly nonce, gas tip cap,
gas fee cap, gas limit, recipient, amount, payload, access list, in that
order, and none of its elements is the chain id or a signature component. -/
theorem serializeForSign_fields (t : TxInternalDataDynamicFee) :
    t.SerializeForSign =
      [SerField.fNonce t.AccountNonce, SerField.fGasTipCap t.GasTipCap,
       SerField.fGasFeeCap t.GasFeeCap, SerField.fGasLimit t.GasLimit,
       SerField.fRecipient t.Recipient, SerField.fAmount t.Amount,
       SerField.fPayload t.Payload, SerField.fAccessList t.AccessList] ∧
    ∀ f ∈ t.SerializeForSign,
      f.isChainID = false ∧ f.isSignatureComponent = false := by
  refine ⟨rfl, ?_⟩
  intro f hf
  simp only [TxInternalDataDynamicFee.SerializeForSign, List.mem_cons,
    List.not_mem_nil, or_false] at hf
  rcases hf with h | h | h | h | h | h | h | h <;> subst h <;> exact ⟨rfl, rfl⟩

/-- Witness for the signing-payload theorem at the zeroed instance. -/
theorem serializeForSign_fields_witness :
    newTxInternalDataDynamicFee.SerializeForSign =
      [SerField.fNonce 0, SerField.fGasTipCap 0, SerField.fGasFeeCap 0,
       SerField.fGasLimit 0, SerField.fRecipient none, SerField.fAmount 0,
       SerField.fPayload [], SerField.fAccessList []] ∧
    (SerField.fNonce 0).isChainID = false ∧
    (SerField.fNonce 0).isSignatureComponent = false := by
  refine ⟨(serializeForSign_fields newTxInternalDataDynamicFee).1, ?_⟩
  exact (serializeForSign_fields newTxInternalDataDynamicFee).2
    (SerField.fNonce 0) (by decide)

/-- **C4.** Signature range validation returns false whenever `r = 0`,
`s = 0` or `s` exceeds the curve-order half, and returns true for every
triple a correct signer can produce (`1 ≤ r < N`, `1 ≤ s ≤ N/2`, recovery
id 0 or 1). -/
theorem validateSignature_ranges (t : TxInternalDataDynamicFee) :
    ((t.R = 0 ∨ t.S = 0 ∨ secp256k1halfN < t.S) →
      t.ValidateSignature = false) ∧
    (1 ≤ t.R → t.R < secp256k1N → 1 ≤ t.S → t.S ≤ secp256k1halfN →
      (t.V = 0 ∨ t.V = 1) →
      t.ValidateSignature = true) := by
  constructor
  · intro h
    unfold TxInternalDataDynamicFee.ValidateSignature validateSignatureValues
    rcases h with h | h | h
    · simp [h]
    · simp [h]
    · have hs : ¬ (t.S ≤ secp256k1halfN) := Nat.not_le.mpr h
      simp [hs]
  · intro h1 h2 h3 h4 h5
    unfold TxInternalDataDynamicFee.ValidateSignature validateSignatureValues
    rcases h5 with h5 | h5 <;> simp [h1, h2, h3, h4, h5]

/-- Witness for the range-validation theorem at concrete triples. -/
theorem validateSignature_ranges_witness :
    ({ newTxInternalDataDynamicFee with R := 1, S := 1 }).ValidateSignature = true ∧
    ({ newTxInternalDataDynamicFee with R := 0, S := 1 }).ValidateSignature = false :=
  ⟨(validateSignature_ranges { newTxInternalDataDynamicFee with R := 1, S := 1 }).2
      (by decide) (by decide) (by decide) (by decide) (Or.inl rfl),
   (validateSignature_ranges { newTxInternalDataDynamicFee with R := 0, S := 1 }).1
      (Or.inl rfl)⟩

/-- Two instances agreeing on everything except `Payload`. -/
def payloadVariantA : TxInternalDataDynamicFee := newTxInternalDataDynamicFee

/-- The same instance with a different payload. -/
def payloadVariantB : TxInternalDataDynamicFee :=
  { newTxInternalDataDynamicFee with Payload := [1] }

/-- **C5.** `Equal` does not compare `Payload`: the two instances differ only
in their payload, yet `Equal` reports them equal — refuting "Equal is true
if and only if every field except cached_hash agrees". -/
theorem equal_ignores_payload :
    TxInternalDataDynamicFee.Equal payloadVariantA payloadVariantB = true ∧
    payloadVariantA.Payload ≠ payloadVariantB.Payload := by
  constructor
  · rfl
  · simp [payloadVariantA, payloadVariantB, newTxInternalDataDynamicFee]

/-- The nine keys this variant's map constructor requires. -/
def requiredKeys : List TxValueKeyType :=
  [.keyNonce, .keyTo, .keyAmount, .keyData, .keyGasLimit, .keyGasFeeCap,
   .keyGasTipCap, .keyAccessList, .keyChainID]

set_option maxHeartbeats 2000000 in
/-- **C6.** Map construction fails with the nonce-specific error, with the
instance under construction still the untouched zeroed one, whenever the
nonce key is missing or not an unsigned-64 value; and for an
otherwise-complete map with one extra unrecognized key it fails with the
undefined-key error after consuming and deleting all nine required keys,
naming exactly that offending key in the warning diagnostic. -/
theorem withMap_nonce_error_and_unknown_key :
    (∀ values : TxValueMap,
      (∀ n, mapLookup values .keyNonce ≠ some (.vUint64 n)) →
      newTxInternalDataDynamicFeeWithMap values =
        .error ⟨.errValueKeyNonceMustUint64, newTxInternalDataDynamicFee, []⟩) ∧
    (∀ (nv : Nat) (av : Addr) (amv : Nat) (bv : List Nat) (gv fv tv : Nat)
        (alv : List AccessTuple) (cv : Nat) (k : TxValueKeyType) (x : TxValue),
      k ∉ requiredKeys →
      newTxInternalDataDynamicFeeWithMap
        [(.keyNonce, .vUint64 nv), (.keyTo, .vAddress av),
         (.keyAmount, .vBigInt amv), (.keyData, .vBytes bv),
         (.keyGasLimit, .vUint64 gv), (.keyGasFeeCap, .vBigInt fv),
         (.keyGasTipCap, .vBigInt tv), (.keyAccessList, .vAccessList alv),
         (.keyChainID, .vBigInt cv), (k, x)] =
        .error ⟨.errUndefinedKeyRemains,
          { ChainID := cv, AccountNonce := nv, GasTipCap := tv,
            GasFeeCap := fv, GasLimit := gv, Recipient := some av,
            Amount := amv, Payload := bv, AccessList := alv,
            V := 0, R := 0, S := 0, Hash := none }, [k]⟩) := by
  constructor
  · intro values hnon
    cases hv : mapLookup values .keyNonce with
    | none => simp [newTxInternalDataDynamicFeeWithMap, hv]
    | some v =>
      cases v with
      | vUint64 n => exact absurd hv (hnon n)
      | vAddress a => simp [newTxInternalDataDynamicFeeWithMap, hv]
      | vBigInt n => simp [newTxInternalDataDynamicFeeWithMap, hv]
      | vBytes b => simp [newTxInternalDataDynamicFeeWithMap, hv]
      | vAccessList al => simp [newTxInternalDataDynamicFeeWithMap, hv]
  · intro nv av amv bv gv fv tv alv cv k x hk
    cases k <;> first
      | exact absurd (by decide) hk
      | rfl

/-- Witness for the map-construction theorem: the empty map and a complete
map with the extra `keyFrom` key. -/
theorem withMap_nonce_error_and_unknown_key_witness :
    newTxInternalDataDynamicFeeWithMap [] =
      .error ⟨.errValueKeyNonceMustUint64, newTxInternalDataDynamicFee, []⟩ ∧
    newTxInternalDataDynamicFeeWithMap
      [(.keyNonce, .vUint64 1), (.keyTo, .vAddress sampleAddr),
       (.keyAmount, .vBigInt 2), (.keyData, .vBytes [3]),
       (.keyGasLimit, .vUint64 4), (.keyGasFeeCap, .vBigInt 5),
       (.keyGasTipCap, .vBigInt 6), (.keyAccessList, .vAccessList []),
       (.keyChainID, .vBigInt 7), (.keyFrom, .vAddress sampleAddr)] =
      .error ⟨.errUndefinedKeyRemains,
        { ChainID := 7, AccountNonce := 1, GasTipCap := 6,
          GasFeeCap := 5, GasLimit := 4, Recipient := some sampleAddr,
          Amount := 2, Payload := [3], AccessList := [],
          V := 0, R := 0, S := 0, Hash := none }, [.keyFrom]⟩ :=
  ⟨withMap_nonce_error_and_unknown_key.1 [] (fun n => by simp [mapLookup]),
   withMap_nonce_error_and_unknown_key.2 1 sampleAddr 2 [3] 4 5 6 [] 7
     .keyFrom (.vAddress sampleAddr) (by decide)⟩

/-- **C7.** `Validate` returns the distinct precompiled-address error
whenever the recipient is present and reserved, and succeeds for every
instance with an absent recipient (the mutable-value check is a no-op
success). -/
theorem validate_precompiled_and_creation (isP : Addr → Bool)
    (t : TxInternalDataDynamicFee) :
    (∀ r, t.Recipient = some r → isP r = true →
      t.Validate isP = some KError.errPrecompiledContractAddress) ∧
    (t.Recipient = none → t.Validate isP = none) := by
  constructor
  · intro r hr hp
    simp [TxInternalDataDynamicFee.Validate, hr, hp]
  · intro hr
    simp [TxInternalDataDynamicFee.Validate, hr,
      TxInternalDataDynamicFee.ValidateMutableValue]

/-- Witness for the validation theorem with a one-address reserved set. -/
theorem validate_precompiled_and_creation_witness :
    ({ newTxInternalDataDynamicFee with Recipient := some sampleAddr }).Validate
        (fun a => a == sampleAddr) = some KError.errPrecompiledContractAddress ∧
    newTxInternalDataDynamicFee.Validate (fun a => a == sampleAddr) = none :=
  ⟨(validate_precompiled_and_creation (fun a => a == sampleAddr)
      { newTxInternalDataDynamicFee with Recipient := some sampleAddr }).1
      sampleAddr rfl (by decide),
   (validate_precompiled_and_creation (fun a => a == sampleAddr)
      newTxInternalDataDynamicFee).2 rfl⟩

/-- Whether an execution event is a nonce increment. -/
def ExecEvent.isIncNonce : ExecEvent → Bool
  | .incNonce _ => true
  | _ => false

/-- **C8.** Execution dispatch: with an absent recipient, `Execute` performs
exactly one `vm.Create` invocation on the payload as init code and no nonce
increment, returning the engine's output, gas used and error unchanged; with
a present recipient it increments the sender's nonce exactly once and then
performs the `vm.Call` on the payload as input, again returning the engine's
result unchanged. -/
theorem execute_dispatch (t : TxInternalDataDynamicFee) (sender : Addr)
    (vmCreate : Addr → List Nat → Nat → Nat → CreateOutcome)
    (vmCall : Addr → Addr → List Nat → Nat → Nat → CallOutcome)
    (gas value : Nat) :
    (t.Recipient = none →
      t.Execute sender vmCreate vmCall gas value =
        ([ExecEvent.create sender t.Payload gas value],
          (vmCreate sender t.Payload gas value).ret,
          (vmCreate sender t.Payload gas value).usedGas,
          (vmCreate sender t.Payload gas value).err) ∧
      ((t.Execute sender vmCreate vmCall gas value).1.countP
        (fun e => e.isIncNonce)) = 0) ∧
    (∀ r, t.Recipient = some r →
      t.Execute sender vmCreate vmCall gas value =
        ([ExecEvent.incNonce sender,
          ExecEvent.call sender r t.Payload gas value],
          (vmCall sender r t.Payload gas value).ret,
          (vmCall sender r t.Payload gas value).usedGas,
          (vmCall sender r t.Payload gas value).err) ∧
      ((t.Execute sender vmCreate vmCall gas value).1.countP
        (fun e => e.isIncNonce)) = 1) := by
  constructor
  · intro hr
    constructor
    · simp [TxInternalDataDynamicFee.Execute, hr]
    · simp [TxInternalDataDynamicFee.Execute, hr, List.countP_cons,
        ExecEvent.isIncNonce]
  · intro r hr
    constructor
    · simp [TxInternalDataDynamicFee.Execute, hr]
    · simp [TxInternalDataDynamicFee.Execute, hr, List.countP_cons,
        ExecEvent.isIncNonce]

/-- A constant creation outcome for the execution witness. -/
def constCreateOutcome : CreateOutcome := ⟨[1], sampleAddr, 42, none⟩

/-- A constant call outcome for the execution witness. -/
def constCallOutcome : CallOutcome := ⟨[2], 7, some 1⟩

/-- Witness for the dispatch theorem at concrete engines. -/
theorem execute_dispatch_witness :
    newTxInternalDataDynamicFee.Execute sampleAddr
        (fun _ _ _ _ => constCreateOutcome) (fun _ _ _ _ _ => constCallOutcome)
        100 5 =
      ([ExecEvent.create sampleAddr [] 100 5], [1], 42, none) ∧
    ({ newTxInternalDataDynamicFee with Recipient := some sampleAddr }).Execute
        sampleAddr (fun _ _ _ _ => constCreateOutcome)
        (fun _ _ _ _ _ => constCallOutcome) 100 5 =
      ([ExecEvent.incNonce sampleAddr,
        ExecEvent.call sampleAddr sampleAddr [] 100 5], [2], 7, some 1) :=
  ⟨((execute_dispatch newTxInternalDataDynamicFee sampleAddr
      (fun _ _ _ _ => constCreateOutcome) (fun _ _ _ _ _ => constCallOutcome)
      100 5).1 rfl).1,
   ((execute_dispatch { newTxInternalDataDynamicFee with Recipient := some sampleAddr }
      sampleAddr (fun _ _ _ _ => constCreateOutcome)
      (fun _ _ _ _ _ => constCallOutcome) 100 5).2 sampleAddr rfl).1⟩

/-- A JSON payload that is complete and well-typed except that its
`signatures` array is empty. -/
def jsonEmptySignatures : TxInternalDataDynamicFeeJSON :=
  { typeInt := TxTypeDynamicFee
    typeStr := TxTypeDynamicFeeName
    accountNonce := 1
    maxPriorityFeePerGas := some 2
    maxFeePerGas := some 3
    gasLimit := 4
    recipient := some sampleAddr
    amount := some 5
    payload := [1]
    txSignatures := []
    accessList := []
    chainID := some 6
    hash := none }

/-- The same payload with one signature whose `v` sub-field is missing. -/
def jsonMissingV : TxInternalDataDynamicFeeJSON :=
  { jsonEmptySignatures with txSignatures := [⟨none, some 7, some 8⟩] }

/-- **C9.** `UnmarshalJSON` neither fails-with-an-error nor reconstructs on
these malformed payloads: an empty `signatures` array makes it crash
(index out of range on `js.TxSignatures[0]`), and a signature missing its
`v` sub-field makes it return success with a nil big-integer cell instead
of an error. -/
theorem unmarshal_empty_or_missing_subfield :
    unmarshalJSON jsonEmptySignatures = UnmarshalResult.panicked ∧
    unmarshalJSON jsonMissingV = UnmarshalResult.okWithNilCell :=
  ⟨rfl, rfl⟩

/-- **C10.** Every successful construction from a keyed map yields an
instance with a present recipient: the `to` key must hold a concrete
address, so the map path can never build a contract-creation (absent
recipient) transaction. -/
theorem withMap_recipient_present (values : TxValueMap)
    (t : TxInternalDataDynamicFee)
    (h : newTxInternalDataDynamicFeeWithMap values = .ok t) :
    t.Recipient.isSome = true := by
  unfold newTxInternalDataDynamicFeeWithMap at h
  iterate 10
    (try simp only [] at h
     split at h <;> try exact (Except.noConfusion h))
  injection h with h
  subst h
  rfl

/-- A complete, typo-free construction map. -/
def completeMap : TxValueMap :=
  [(.keyNonce, .vUint64 1), (.keyTo, .vAddress sampleAddr),
   (.keyAmount, .vBigInt 2), (.keyData, .vBytes [3]),
   (.keyGasLimit, .vUint64 4), (.keyGasFeeCap, .vBigInt 5),
   (.keyGasTipCap, .vBigInt 6), (.keyAccessList, .vAccessList oneEntryAccessList),
   (.keyChainID, .vBigInt 7)]

/-- The instance `completeMap` constructs. -/
def completeMapTx : TxInternalDataDynamicFee :=
  { ChainID := 7
    AccountNonce := 1
    GasTipCap := 6
    GasFeeCap := 5
    GasLimit := 4
    Recipient := some sampleAddr
    Amount := 2
    Payload := [3]
    AccessList := oneEntryAccessList
    V := 0
    R := 0
    S := 0
    Hash := none }

/-- Witness for the recipient-presence theorem at `completeMap`. -/
theorem withMap_recipient_present_witness :
    completeMapTx.Recipient.isSome = true :=
  withMap_recipient_present completeMap completeMapTx rfl

end KlaytnTx
